import Mathlib

/-!
Verification of the `react-live-time` core (src/src/index.tsx) against its
natural-language specification.

Shallow embedding conventions:
* A JavaScript `Date` object is represented by its time value: `Option ℤ`
  (milliseconds since the Unix epoch; `none` is an invalid date, i.e. a `NaN`
  time value).
* JavaScript numbers appearing as epoch values are modelled as integers `ℤ`
  (the library's documented numeric inputs are integral Unix timestamps).
* Exact quantities such as `diffInSeconds` are modelled in `ℚ`; the value
  `NaN` (arising from an invalid date) is modelled by `Option ℚ = none`.
  Every JS comparison `NaN < x`, `NaN >= x`, `NaN > x` is `false`, which the
  embedding reproduces at each use site.
* The host platform's general date-string parser (`new Date(string)`) is an
  external collaborator, passed as a parameter `host : String → Option ℤ`
  (`none` models an invalid date / `NaN` time value).
-/

namespace ReactLiveTime

/-- ES `TimeClip`: a time value farther than 8.64e15 ms from the epoch is
invalid (`NaN`); otherwise it is kept. Used by `new Date(number)`. -/
def timeClip (t : ℤ) : Option ℤ :=
  if t.natAbs ≤ 8640000000000000 then some t else none

/-- Input type of `parseDate` (src line 3 and the `null`/`undefined` cases):
`number | string | Date | null | undefined`, plus any other runtime value
(`other`), which the final fallthrough (src line 46) maps to `null`. -/
inductive DateInput where
  | null
  | date (t : Option ℤ)
  | num (n : ℤ)
  | str (s : String)
  | other
deriving DecidableEq

/-- Length of `Math.abs(n).toString()` for an integral JS number `n` written
in positional decimal notation (src line 16). For `|n| ≥ 10^21` JS switches
to exponential notation and the lengths differ, but there both branch
choices produce a time value outside the `timeClip` range, hence the same
invalid date; the embedding is observationally faithful. -/
def jsNumStringLength (n : ℤ) : ℕ :=
  if n.natAbs = 0 then 1 else (Nat.digits 10 n.natAbs).length

/-- Separator character class (dash or slash) used by both fast-path regexes (src lines 23, 31). -/
def isSep (c : Char) : Bool := c == '-' || c == '/'

/-- The regex matching `YYYY-MM-DD` / `YYYY/MM/DD` with mixed separators allowed (src line 23), as an explicit
matcher on the character list of the input, returning the three capture
groups. -/
def matchYMDList : List Char → Option (String × String × String)
  | [y1, y2, y3, y4, p, m1, m2, q, d1, d2] =>
    if y1.isDigit && y2.isDigit && y3.isDigit && y4.isDigit && isSep p &&
        m1.isDigit && m2.isDigit && isSep q && d1.isDigit && d2.isDigit then
      some (⟨[y1, y2, y3, y4]⟩, ⟨[m1, m2]⟩, ⟨[d1, d2]⟩)
    else none
  | _ => none

/-- The regex matching two-digit month, two-digit day, four-digit year with dash or slash separators (src line 31, US order), as an explicit matcher returning the capture groups. -/
def matchMDYList : List Char → Option (String × String × String)
  | [m1, m2, p, d1, d2, q, y1, y2, y3, y4] =>
    if m1.isDigit && m2.isDigit && isSep p && d1.isDigit && d2.isDigit &&
        isSep q && y1.isDigit && y2.isDigit && y3.isDigit && y4.isDigit then
      some (⟨[m1, m2]⟩, ⟨[d1, d2]⟩, ⟨[y1, y2, y3, y4]⟩)
    else none
  | _ => none

/-- The string handed to `new Date(...)` by the string branch of `parseDate`
(src lines 20-39): the rebuilt `T00:00:00` ISO form when a fast-path regex
matched, otherwise the original string. -/
def effectiveParseString (s : String) : String :=
  match matchYMDList s.toList with
  | some (y, m, d) => y ++ "-" ++ m ++ "-" ++ d ++ "T00:00:00"
  | none =>
    match matchMDYList s.toList with
    | some (m, d, y) => y ++ "-" ++ m ++ "-" ++ d ++ "T00:00:00"
    | none => s

/-- `parseDate` (src lines 5-47). Result `none` is JS `null`; a result
`some t` is a `Date` object with time value `t : Option ℤ` (`some none` is an
invalid `Date` object, which the `Date` branch passes through unvalidated and
the numeric branch can produce via `timeClip`). The string branch validates
with `isNaN` and never returns an invalid date. -/
def parseDate (host : String → Option ℤ) : DateInput → Option (Option ℤ)
  | .null => none
  | .date t => some t
  | .num n =>
    some (timeClip (n * (if jsNumStringLength n < 13 then 1000 else 1)))
  | .str s => (host (effectiveParseString s)).map some
  | .other => none

/-- The seven bucket units of the fixed table (src lines 72-80). -/
inductive TimeUnit where
  | year | month | week | day | hour | minute | second
deriving DecidableEq

/-- Unit lengths in seconds from the fixed table (src lines 72-80). -/
def unitSeconds : TimeUnit → ℚ
  | .year => 31536000
  | .month => 2592000
  | .week => 604800
  | .day => 86400
  | .hour => 3600
  | .minute => 60
  | .second => 1

/-- The descending scan order of the fixed table (src lines 72-80). -/
def unitTable : List TimeUnit :=
  [.year, .month, .week, .day, .hour, .minute, .second]

/-- JS `Math.round` on an exact rational: the closest integer, half-way cases
toward positive infinity (src line 83). -/
def jsRound (q : ℚ) : ℤ := ⌊q + 1 / 2⌋

/-- `RelativeTimeParts` (src lines 57-61). `diffInSeconds = none` models a
`NaN` offset (from an invalid date). -/
structure RelativeTimeParts where
  value : ℤ
  unit : TimeUnit
  diffInSeconds : Option ℚ
deriving DecidableEq

/-- The unit-selection loop of `calculateRelativeTime` (src lines 82-89):
first unit in scan order whose rounded quotient has absolute value ≥ 1; if
none qualifies, `{value 0, unit second}` (src line 89). When the offset is
`NaN`, `Math.round` yields `NaN` and `Math.abs(NaN) >= 1` is false, so every
unit is skipped. -/
def scanUnits (diff : Option ℚ) : List TimeUnit → RelativeTimeParts
  | [] => ⟨0, .second, diff⟩
  | u :: rest =>
    match diff with
    | some q =>
      let v := jsRound (q / unitSeconds u)
      if 1 ≤ v.natAbs then ⟨v, u, diff⟩ else scanUnits diff rest
    | none => scanUnits none rest

/-- `calculateRelativeTime` (src lines 63-90). `now` is the time value of
`new Date()` sampled at call entry (src line 69);
`diffInSeconds = (date.getTime() - now.getTime()) / 1000` (src line 70) is
`NaN` (`none`) when the parsed date is invalid. -/
def calculateRelativeTime (host : String → Option ℤ) (now : ℤ)
    (input : DateInput) : Option RelativeTimeParts :=
  match parseDate host input with
  | none => none
  | some tOpt =>
    let diff : Option ℚ := tOpt.map (fun t => ((t : ℚ) - (now : ℚ)) / 1000)
    some (scanUnits diff unitTable)

/-- Outcome of `formatRelativeTime`: which host formatting engine is invoked
and with which data. `absolute t` is `new Intl.DateTimeFormat(locale,
absoluteFormatOptions).format(date)` applied to the re-parsed date with time
value `t` (src line 113); `relative v u` is `rtf.format(value, unit)`
(src line 117). The locale/style/numeric/absoluteFormatOptions values are
forwarded opaquely to the host engines and are not modelled. -/
inductive Output where
  | absolute (instant : Option ℤ)
  | relative (value : ℤ) (unit : TimeUnit)
deriving DecidableEq

/-- The guard `threshold && Math.abs(diffInSeconds) > threshold`
(src line 111): a missing or zero `threshold` is falsy, and the comparison
with a `NaN` offset is false. -/
def thresholdExceeded (threshold : Option ℚ) (diff : Option ℚ) : Bool :=
  match threshold with
  | none => false
  | some t =>
    if t = 0 then false
    else
      match diff with
      | none => false
      | some q => decide (|q| > t)

/-- `formatRelativeTime` (src lines 92-118), with the formatted string
abstracted to the `Output` fed to the host locale engine. -/
def formatRelativeTime (host : String → Option ℤ) (now : ℤ)
    (input : DateInput) (threshold : Option ℚ) : Option Output :=
  match calculateRelativeTime host now input with
  | none => none
  | some parts =>
    if thresholdExceeded threshold parts.diffInSeconds then
      match parseDate host input with
      | some d => some (.absolute d)
      | none => none
    else some (.relative parts.value parts.unit)

/-- `_getDynamicInterval` (src lines 136-142): the adaptive refresh delay in
milliseconds chosen from the offset magnitude, `-1` meaning no further
refresh. -/
def getDynamicInterval (diffInSeconds : ℚ) : ℤ :=
  if |diffInSeconds| < 60 then 1000
  else if |diffInSeconds| < 3600 then 60000
  else if |diffInSeconds| < 86400 then 3600000
  else -1

/-- `_getDynamicInterval` applied to a possibly-`NaN` offset: every
comparison with `NaN` is false, so the result is `-1`. -/
def getDynamicIntervalOpt : Option ℚ → ℤ
  | none => -1
  | some q => getDynamicInterval q

/-- Numeric value of a decimal digit character. -/
def digitVal (c : Char) : ℕ := c.toNat - 48

/-- Numeric value of a two-digit-character pair. -/
def val2 (a b : Char) : ℕ := 10 * digitVal a + digitVal b

/-- Numeric value of a four-digit-character group. -/
def val4 (a b c d : Char) : ℕ :=
  1000 * digitVal a + 100 * digitVal b + 10 * digitVal c + digitVal d

/-- Gregorian leap-year rule. -/
def isLeap (y : ℕ) : Bool := (y % 4 == 0 && y % 100 != 0) || y % 400 == 0

/-- Number of days in a month of the proleptic Gregorian calendar. -/
def daysInMonth (y m : ℕ) : ℕ :=
  if m = 2 then (if isLeap y then 29 else 28)
  else if m = 4 || m = 6 || m = 9 || m = 11 then 30
  else 31

/-- Days from the Unix epoch (1970-01-01) to the civil date y-m-d in the
proleptic Gregorian calendar (Howard Hinnant's `days_from_civil`). -/
def daysFromCivil (y : ℕ) (m d : ℕ) : ℤ :=
  let yy : ℤ := if m ≤ 2 then (y : ℤ) - 1 else (y : ℤ)
  let era : ℤ := (if 0 ≤ yy then yy else yy - 399) / 400
  let yoe : ℤ := yy - era * 400
  let mp : ℤ := ((m : ℤ) + 9) % 12
  let doy : ℤ := (153 * mp + 2) / 5 + (d : ℤ) - 1
  let doe : ℤ := yoe * 365 + yoe / 4 - yoe / 100 + doy
  era * 146097 + doe - 719468

/-- UTC midnight of the civil date y-m-d, in ms since the epoch. -/
def utcMidnightMs (y m d : ℕ) : ℤ := 86400000 * daysFromCivil y m d

/-- Modelled from the spec: the host platform's general date-string parser
(`new Date(string)`), an external collaborator not part of the repository.
The model covers exactly the ES date-time form `YYYY-MM-DDTHH:MM:SS` that
the normalizer's fast paths construct: per the ES Date Time String Format a
date-time without an offset designator is interpreted in local time, modelled
here by a fixed local-zone offset `tz` in ms east of UTC, and out-of-range
components give an invalid date (`none`). Strings outside this form are
outside the model and map to `none`. -/
def esHost (tz : ℤ) (s : String) : Option ℤ :=
  match s.toList with
  | [y1, y2, y3, y4, p1, mo1, mo2, p2, d1, d2, tc,
     h1, h2, c1, mi1, mi2, c2, s1, s2] =>
    if p1 = '-' ∧ p2 = '-' ∧ tc = 'T' ∧ c1 = ':' ∧ c2 = ':' ∧
        y1.isDigit = true ∧ y2.isDigit = true ∧ y3.isDigit = true ∧
        y4.isDigit = true ∧ mo1.isDigit = true ∧ mo2.isDigit = true ∧
        d1.isDigit = true ∧ d2.isDigit = true ∧ h1.isDigit = true ∧
        h2.isDigit = true ∧ mi1.isDigit = true ∧ mi2.isDigit = true ∧
        s1.isDigit = true ∧ s2.isDigit = true then
      let y := val4 y1 y2 y3 y4
      let mo := val2 mo1 mo2
      let d := val2 d1 d2
      let hh := val2 h1 h2
      let mi := val2 mi1 mi2
      let ss := val2 s1 s2
      if 1 ≤ mo ∧ mo ≤ 12 ∧ 1 ≤ d ∧ d ≤ daysInMonth y mo ∧
          hh ≤ 23 ∧ mi ≤ 59 ∧ ss ≤ 59 then
        some (utcMidnightMs y mo d +
          3600000 * (hh : ℤ) + 60000 * (mi : ℤ) + 1000 * (ss : ℤ) - tz)
      else none
    else none
  | _ => none

/-- Decimal value of a digit string (used to state theorems about the
capture groups of the fast-path matchers). -/
def strVal (s : String) : ℕ :=
  s.toList.foldl (fun a c => 10 * a + digitVal c) 0

/-- The timer session set up by the `useLiveRelativeTime` effect (src lines
152-164): the interval is computed once, from the offset current at effect
setup; `none` when the input does not parse or the dynamic interval is not
positive (no `setInterval` is installed). -/
def hookSessionInterval (host : String → Option ℤ) (now : ℤ)
    (input : DateInput) : Option ℤ :=
  match calculateRelativeTime host now input with
  | none => none
  | some parts =>
    let i := getDynamicIntervalOpt parts.diffInSeconds
    if 0 < i then some i else none

/-- The timer session set up by `LiveRelativeTime.startTimer` (src lines
198-216): as the hook, but an explicit `updateInterval` prop overrides the
dynamic policy (`this.props.updateInterval ?? _getDynamicInterval(...)`,
src line 203). -/
def classSessionInterval (host : String → Option ℤ) (now : ℤ)
    (input : DateInput) (updateInterval : Option ℤ) : Option ℤ :=
  match calculateRelativeTime host now input with
  | none => none
  | some parts =>
    let i := updateInterval.getD (getDynamicIntervalOpt parts.diffInSeconds)
    if 0 < i then some i else none

/-- `setInterval(f, i)` semantics: the n-th callback fire (counting from 0)
occurs `(n+1) * i` ms after installation; the cadence is fixed at `i`. -/
def fireElapsedMs (i : ℤ) (n : ℕ) : ℤ := ((n : ℤ) + 1) * i

/-- The signed offset in seconds after `elapsedMs` ms of wall time have
passed since a moment at which the offset was `d0` seconds: the target
instant is fixed while `now` advances. -/
def offsetAfter (d0 : ℚ) (elapsedMs : ℤ) : ℚ := d0 - (elapsedMs : ℚ) / 1000

/-- State of one `LiveRelativeTime` timer session with an `onEnd` prop:
wall time elapsed since `startTimer`, whether the `setInterval` timer is
still installed, and how often `onEnd` has been invoked. -/
structure SessionState where
  elapsedMs : ℤ
  active : Bool
  onEndCount : ℕ
deriving DecidableEq

/-- One `setInterval` callback fire of the class component's timer (src
lines 206-215): recompute the parts from the offset current at the fire; if
`onEnd` is present and `diffInSeconds <= 0`, invoke it and stop the timer.
A fire of an already-stopped timer changes nothing. `d0` is the offset in
seconds at `startTimer`, `i` the fixed `setInterval` cadence in ms. -/
def classFire (d0 : ℚ) (i : ℤ) (s : SessionState) : SessionState :=
  if s.active then
    let e := s.elapsedMs + i
    if offsetAfter d0 e ≤ 0 then ⟨e, false, s.onEndCount + 1⟩
    else ⟨e, true, s.onEndCount⟩
  else s

/-- The session state after `n` scheduled fires of a class-component timer
session that started with offset `d0` and cadence `i`. -/
def classRun (d0 : ℚ) (i : ℤ) : ℕ → SessionState
  | 0 => ⟨0, true, 0⟩
  | n + 1 => classFire d0 i (classRun d0 i n)

/-- Round-half-away-from-zero on the exact quotient, as the specification
describes the rounding: `sign(q) * floor(|q| + 1/2)`. This definition follows
the spec's words, for comparison with the code's `jsRound`. -/
def specRound (q : ℚ) : ℤ :=
  if q < 0 then -⌊|q| + 1 / 2⌋ else ⌊|q| + 1 / 2⌋

/-- The statement that a unit's rounded quotient passes the selection test
`Math.abs(value) >= 1` of the scan loop (src line 84); never holds for a
`NaN` offset. -/
def unitQualifies (diff : Option ℚ) (u : TimeUnit) : Prop :=
  ∃ q, diff = some q ∧ 1 ≤ (jsRound (q / unitSeconds u)).natAbs

section Lemmas

/-- The decimal string length test of the numeric heuristic is equivalent to
a magnitude bound: fewer than 13 digits exactly when `|n| < 10^12`. -/
lemma jsNumStringLength_lt_iff (n : ℤ) :
    jsNumStringLength n < 13 ↔ n.natAbs < 10 ^ 12 := by
  unfold jsNumStringLength
  rcases eq_or_ne n.natAbs 0 with h0 | h0
  · simp [h0]
  · rw [if_neg h0]
    constructor
    · intro h
      calc n.natAbs < 10 ^ (Nat.digits 10 n.natAbs).length :=
            Nat.lt_base_pow_length_digits (by norm_num)
        _ ≤ 10 ^ 12 := Nat.pow_le_pow_right (by norm_num) (by omega)
    · intro h
      by_contra hlen
      have h13 : (10:ℕ) ^ 13 ≤ 10 ^ (Nat.digits 10 n.natAbs).length :=
        Nat.pow_le_pow_right (by norm_num) (by omega)
      have := Nat.base_pow_length_digits_le 10 n.natAbs (by norm_num) h0
      omega

/-- The fields of a `scanUnits` result: `diffInSeconds` is passed through
unchanged. -/
lemma scanUnits_diff (diff : Option ℚ) (L : List TimeUnit) :
    (scanUnits diff L).diffInSeconds = diff := by
  induction L with
  | nil => rfl
  | cons u rest ih =>
    cases diff with
    | none => simpa [scanUnits] using ih
    | some q =>
      simp only [scanUnits]
      split <;> simp [ih]

/-- A `NaN` offset never selects a unit: the scan falls through to the
degenerate `{0, second}` result. -/
lemma scanUnits_none (L : List TimeUnit) :
    scanUnits none L = ⟨0, .second, none⟩ := by
  induction L with
  | nil => rfl
  | cons u rest ih => simpa [scanUnits] using ih

end Lemmas

/-- C9: the scheduler's delay policy. For every signed offset in seconds,
`_getDynamicInterval` returns 1000 ms when the magnitude is below 60,
60000 ms when it is in [60, 3600), 3600000 ms when it is in [3600, 86400),
and the sentinel -1 ("no further refresh needed") when it is at least
86400. -/
theorem c9_dynamic_interval (d : ℚ) :
    (|d| < 60 → getDynamicInterval d = 1000) ∧
    (60 ≤ |d| → |d| < 3600 → getDynamicInterval d = 60000) ∧
    (3600 ≤ |d| → |d| < 86400 → getDynamicInterval d = 3600000) ∧
    (86400 ≤ |d| → getDynamicInterval d = -1) := by
  unfold getDynamicInterval
  refine ⟨fun h1 => ?_, fun h1 h2 => ?_, fun h1 h2 => ?_, fun h1 => ?_⟩ <;>
    split_ifs <;> first | rfl | linarith

/-- Witness for C9 at the boundary magnitudes named by the spec: 59 s, 61 s,
3601 s and 90000 s (the last both as a positive and a negative offset). -/
theorem c9_witness :
    getDynamicInterval 59 = 1000 ∧ getDynamicInterval 61 = 60000 ∧
    getDynamicInterval 3601 = 3600000 ∧ getDynamicInterval 90000 = -1 ∧
    getDynamicInterval (-90000) = -1 :=
  ⟨(c9_dynamic_interval 59).1 (by norm_num),
   (c9_dynamic_interval 61).2.1 (by norm_num) (by norm_num),
   (c9_dynamic_interval 3601).2.2.1 (by norm_num) (by norm_num),
   (c9_dynamic_interval 90000).2.2.2 (by norm_num),
   (c9_dynamic_interval (-90000)).2.2.2 (by norm_num)⟩

/-- C7: the numeric-epoch heuristic. For every integral numeric input, the
value is scaled by 1000 (seconds since epoch) exactly when the decimal digit
count of its absolute value is below 13 (equivalently `|n| < 10^12`), and
taken as milliseconds otherwise; input 1700000000 yields the instant
1700000000000 ms, and input 1700000000000 yields 1700000000000 ms
directly. -/
theorem c7_numeric_heuristic (host : String → Option ℤ) (n : ℤ) :
    (n.natAbs < 10 ^ 12 → parseDate host (.num n) = some (timeClip (n * 1000))) ∧
    (10 ^ 12 ≤ n.natAbs → parseDate host (.num n) = some (timeClip n)) ∧
    parseDate host (.num 1700000000) = some (some 1700000000000) ∧
    parseDate host (.num 1700000000000) = some (some 1700000000000) := by
  have gen : ∀ m : ℤ, (m.natAbs < 10 ^ 12 →
      parseDate host (.num m) = some (timeClip (m * 1000))) ∧
      (10 ^ 12 ≤ m.natAbs → parseDate host (.num m) = some (timeClip m)) := by
    intro m
    constructor
    · intro h
      simp [parseDate, if_pos ((jsNumStringLength_lt_iff m).2 h)]
    · intro h
      have : ¬ jsNumStringLength m < 13 := by
        rw [jsNumStringLength_lt_iff]; omega
      simp [parseDate, if_neg this]
  refine ⟨(gen n).1, (gen n).2, ?_, ?_⟩
  · rw [(gen 1700000000).1 (by norm_num)]
    norm_num [timeClip]
  · rw [(gen 1700000000000).2 (by norm_num)]
    norm_num [timeClip]

/-- Witness for C7 at the spec's own example inputs: a 10-digit value is
scaled to ms, a 13-digit value is taken as ms. -/
theorem c7_witness :
    parseDate (esHost 0) (.num 1700000000) = some (some 1700000000000) ∧
    parseDate (esHost 0) (.num 1700000000000) = some (some 1700000000000) :=
  ⟨(c7_numeric_heuristic (esHost 0) 0).2.2.1,
   (c7_numeric_heuristic (esHost 0) 0).2.2.2⟩

/-- Counterexample to C3 as stated: at offset -90 s the quotient by the
minute unit is -1.5; the calculator's magnitude is `Math.round(-1.5) = -1`,
while round-half-away-from-zero of -1.5 is -2. -/
theorem c3_counterexample :
    calculateRelativeTime (esHost 0) 90000 (.date (some 0)) =
      some ⟨-1, .minute, some (-90)⟩ ∧
    specRound ((-90 : ℚ) / 60) = -2 ∧ ((-1 : ℤ) ≠ (-2 : ℤ)) := by
  refine ⟨?_, ?_, by decide⟩
  · simp only [calculateRelativeTime, parseDate, Option.map, scanUnits, unitTable,
      unitSeconds, jsRound]
    norm_num
  · have habs : |(-90 : ℚ) / 60| = 3 / 2 := by
      rw [abs_of_neg (by norm_num)]; norm_num
    rw [specRound, if_pos (by norm_num : ((-90 : ℚ) / 60) < 0), habs]
    norm_num

/-- C3 amended: the rounded magnitude is `floor(q + 1/2)`, i.e.
round-half-toward-positive-infinity. It agrees with
round-half-away-from-zero everywhere except at negative quotients exactly
halfway between integers, where it is greater by one (so -1.5 rounds
to -1, not -2). -/
theorem c3_rounding_amended (q : ℚ) :
    jsRound q = specRound q + (if q < 0 ∧ Int.fract q = 1 / 2 then 1 else 0) := by
  rcases le_or_lt 0 q with hq | hq
  · rw [specRound, if_neg (not_lt.2 hq), abs_of_nonneg hq, jsRound,
      if_neg (by rintro ⟨h, _⟩; exact absurd hq (not_le.2 h)), add_zero]
  · have hfl : (⌊q⌋ : ℚ) + Int.fract q = q := Int.floor_add_fract q
    set k := ⌊q⌋ with hk
    set f := Int.fract q with hf
    have hq' : q = (k : ℚ) + f := by linarith
    have hf0 : 0 ≤ f := Int.fract_nonneg q
    have hf1 : f < 1 := Int.fract_lt_one q
    have habs : |q| = -q := abs_of_neg hq
    rcases lt_trichotomy f (1 / 2) with h | h | h
    · have h1 : jsRound q = k := by
        rw [jsRound, hq', add_assoc, Int.floor_int_add,
          Int.floor_eq_zero_iff.2 ⟨by linarith, by linarith⟩, add_zero]
      have h2 : specRound q = k := by
        rw [specRound, if_pos hq, habs, hq']
        have e : -((k : ℚ) + f) + 1 / 2 = (-k : ℤ) + (1 / 2 - f) := by
          push_cast; ring
        rw [e, Int.floor_int_add,
          Int.floor_eq_zero_iff.2 ⟨by linarith, by linarith⟩]
        ring
      rw [h1, h2, if_neg (by rintro ⟨_, hc⟩; linarith), add_zero]
    · have h1 : jsRound q = k + 1 := by
        rw [jsRound, hq', h]
        have e : (k : ℚ) + 1 / 2 + 1 / 2 = ((k + 1 : ℤ) : ℚ) := by push_cast; ring
        rw [e, Int.floor_intCast]
      have h2 : specRound q = k := by
        rw [specRound, if_pos hq, habs, hq', h]
        have e : -((k : ℚ) + 1 / 2) + 1 / 2 = ((-k : ℤ) : ℚ) := by push_cast; ring
        rw [e, Int.floor_intCast]
        ring
      rw [h1, h2, if_pos ⟨hq, h⟩]
    · have h1 : jsRound q = k + 1 := by
        rw [jsRound, hq', add_assoc, Int.floor_int_add,
          show ⌊f + 1 / 2⌋ = 1 from Int.floor_eq_iff.2 ⟨by push_cast; linarith,
            by push_cast; linarith⟩]
      have h2 : specRound q = k + 1 := by
        rw [specRound, if_pos hq, habs, hq']
        have e : -((k : ℚ) + f) + 1 / 2 = (-k : ℤ) + (1 / 2 - f) := by
          push_cast; ring
        rw [e, Int.floor_int_add,
          show ⌊(1 : ℚ) / 2 - f⌋ = -1 from Int.floor_eq_iff.2
            ⟨by push_cast; linarith, by push_cast; linarith⟩]
        ring
      rw [h1, h2, if_neg (by rintro ⟨_, hc⟩; linarith), add_zero]

/-- Counterexample to C5 as stated: with `threshold: 0` present in the
options and an offset of -172800 s (so `|diff| > threshold`), the claim
requires the absolute-date fallback, but `threshold && ...` is falsy for 0,
so the code returns the relative phrase for (-2, day). -/
theorem c5_counterexample :
    formatRelativeTime (esHost 0) 172800000 (.date (some 0)) (some 0) =
      some (.relative (-2) .day) ∧
    Output.relative (-2) .day ≠ Output.absolute (some 0) := by
  refine ⟨?_, by decide⟩
  simp only [formatRelativeTime, calculateRelativeTime, parseDate, Option.map,
    scanUnits, unitTable, unitSeconds, jsRound, thresholdExceeded]
  norm_num

/-- C5 amended: when `threshold` is present with a nonzero value `t` and the
offset magnitude exceeds `t`, the result is the host absolute-date formatter
applied to the re-normalized instant; when `threshold` is absent — or
present but 0, which the truthiness test treats like absence — the
absolute-date fallback never triggers and a relative phrase is returned for
every offset. -/
theorem c5_threshold_amended (host : String → Option ℤ) (now : ℤ)
    (input : DateInput) (t : ℚ) (q : ℚ) (parts : RelativeTimeParts)
    (hc : calculateRelativeTime host now input = some parts)
    (hq : parts.diffInSeconds = some q) :
    (t ≠ 0 → |q| > t → ∃ d, parseDate host input = some d ∧
      formatRelativeTime host now input (some t) = some (.absolute d)) ∧
    formatRelativeTime host now input none =
      some (.relative parts.value parts.unit) ∧
    formatRelativeTime host now input (some 0) =
      some (.relative parts.value parts.unit) := by
  obtain ⟨d, hd⟩ : ∃ d, parseDate host input = some d := by
    unfold calculateRelativeTime at hc
    cases hp : parseDate host input with
    | none => rw [hp] at hc; exact absurd hc (by simp)
    | some d => exact ⟨d, rfl⟩
  refine ⟨fun ht hgt => ⟨d, hd, ?_⟩, ?_, ?_⟩
  · simp [formatRelativeTime, hc, thresholdExceeded, hq, ht, hgt, hd]
  · simp [formatRelativeTime, hc, thresholdExceeded]
  · simp [formatRelativeTime, hc, thresholdExceeded]

/-- Witness for C5 at the spec's own example: offset -172800 s (2 days ago)
with threshold 86400 s triggers the absolute-date fallback. -/
theorem c5_witness :
    ∃ d, parseDate (esHost 0) (.date (some 0)) = some d ∧
      formatRelativeTime (esHost 0) 172800000 (.date (some 0)) (some 86400) =
        some (.absolute d) :=
  (c5_threshold_amended (esHost 0) 172800000 (.date (some 0)) 86400 (-172800)
      ⟨-2, .day, some (-172800)⟩
      (by
        simp only [calculateRelativeTime, parseDate, Option.map, scanUnits,
          unitTable, unitSeconds, jsRound]
        norm_num)
      rfl).1 (by norm_num) (by rw [abs_of_neg (by norm_num)]; norm_num)

/-- Counterexample to C4 as stated: a `Date` object whose time value is
invalid (`NaN`) is not resolvable to a valid calendar instant, yet
`parseDate` returns it unchanged (not null), `calculateRelativeTime` returns
the degenerate parts `{value 0, unit second, diffInSeconds NaN}` (not null),
and `formatRelativeTime` returns the relative phrase for (0, second) (not
null). -/
theorem c4_counterexample :
    parseDate (esHost 0) (.date none) = some none ∧
    calculateRelativeTime (esHost 0) 0 (.date none) = some ⟨0, .second, none⟩ ∧
    formatRelativeTime (esHost 0) 0 (.date none) (some 5) =
      some (.relative 0 .second) ∧
    some (none : Option ℤ) ≠ (none : Option (Option ℤ)) := by
  refine ⟨rfl, ?_, ?_, by simp⟩
  · simp [calculateRelativeTime, parseDate, scanUnits_none]
  · simp [formatRelativeTime, calculateRelativeTime, parseDate, scanUnits_none,
      thresholdExceeded]

/-- C4 amended: null/undefined inputs, other non-date values, and every
string input whose (possibly rewritten) host parse fails — unparseable
strings and malformed calendar dates alike — yield null from `parseDate`,
`calculateRelativeTime` and `formatRelativeTime`, and no function ever
throws (all are total); a non-null string-branch result is always a valid
instant. However a `Date` object is passed through unvalidated: for an
invalid `Date`, `parseDate` returns it, `calculateRelativeTime` returns
`{0, second, NaN}` and `formatRelativeTime` a relative phrase; the numeric
branch can likewise produce an invalid (out-of-range) instant rather than
null. -/
theorem c4_null_propagation_amended (host : String → Option ℤ) (now : ℤ)
    (th : Option ℚ) :
    (parseDate host .null = none ∧ calculateRelativeTime host now .null = none ∧
      formatRelativeTime host now .null th = none) ∧
    (parseDate host .other = none ∧
      calculateRelativeTime host now .other = none ∧
      formatRelativeTime host now .other th = none) ∧
    (∀ s, host (effectiveParseString s) = none →
      parseDate host (.str s) = none ∧
      calculateRelativeTime host now (.str s) = none ∧
      formatRelativeTime host now (.str s) th = none) ∧
    (∀ t, parseDate host (.date t) = some t) ∧
    calculateRelativeTime host now (.date none) = some ⟨0, .second, none⟩ ∧
    (∀ s t, parseDate host (.str s) = some t → t ≠ none) := by
  refine ⟨⟨rfl, rfl, rfl⟩, ⟨rfl, rfl, rfl⟩, fun s hs => ?_, fun t => rfl, ?_,
    fun s t hp => ?_⟩
  · refine ⟨?_, ?_, ?_⟩
    · simp [parseDate, hs]
    · simp [calculateRelativeTime, parseDate, hs]
    · simp [formatRelativeTime, calculateRelativeTime, parseDate, hs]
  · simp [calculateRelativeTime, parseDate, scanUnits_none]
  · simp only [parseDate, Option.map_eq_some'] at hp
    obtain ⟨v, _, rfl⟩ := hp
    simp

/-- Witness for C4 (amended) on the unparseable string "not a date": the
host parser rejects it and all three public functions return null. -/
theorem c4_witness :
    parseDate (esHost 0) (.str "not a date") = none ∧
    calculateRelativeTime (esHost 0) 0 (.str "not a date") = none ∧
    formatRelativeTime (esHost 0) 0 (.str "not a date") none = none :=
  (c4_null_propagation_amended (esHost 0) 0 none).2.2.1 "not a date" (by decide)

/-- Counterexample to C2 as stated: a hook session observing a timestamp
3590 s in the past computes the interval 60000 ms once; at the first fire
(60 s later) the current offset is -3650 s, for which the adaptive policy
yields 3600000 ms, yet `setInterval` fires again 60000 ms later — the
previously computed delay is reused as a fixed cadence instead of being
re-derived. -/
theorem c2_counterexample :
    hookSessionInterval (esHost 0) 3590000 (.date (some 0)) = some 60000 ∧
    fireElapsedMs 60000 1 - fireElapsedMs 60000 0 = 60000 ∧
    offsetAfter (-3590) (fireElapsedMs 60000 0) = -3650 ∧
    getDynamicInterval (-3650) = 3600000 ∧
    (60000 : ℤ) ≠ 3600000 := by
  refine ⟨?_, by norm_num [fireElapsedMs], ?_, ?_, by decide⟩
  · simp only [hookSessionInterval, calculateRelativeTime, parseDate, Option.map,
      scanUnits, unitTable, unitSeconds, jsRound, getDynamicIntervalOpt,
      getDynamicInterval]
    norm_num
  · norm_num [offsetAfter, fireElapsedMs]
  · rw [getDynamicInterval, if_neg (by rw [abs_of_neg] <;> norm_num),
      if_neg (by rw [abs_of_neg] <;> norm_num),
      if_pos (by rw [abs_of_neg] <;> norm_num)]

/-- C2 amended: in both display bindings the delay is derived exactly once
per timer session — at effect setup / `startTimer`, from the offset current
at that moment (or from the `updateInterval` override in the class
component) — and `setInterval` then reuses that same delay as a fixed
cadence for every subsequent fire; it is never re-derived at a fire, only
when the session itself is torn down and restarted. -/
theorem c2_fixed_cadence_amended (host : String → Option ℤ) (now : ℤ)
    (input : DateInput) (ui : Option ℤ) (i : ℤ) (n : ℕ) :
    (hookSessionInterval host now input = some i →
      fireElapsedMs i (n + 1) - fireElapsedMs i n = i ∧ 0 < i ∧
      ∃ parts, calculateRelativeTime host now input = some parts ∧
        i = getDynamicIntervalOpt parts.diffInSeconds) ∧
    (classSessionInterval host now input ui = some i →
      fireElapsedMs i (n + 1) - fireElapsedMs i n = i ∧ 0 < i ∧
      ∃ parts, calculateRelativeTime host now input = some parts ∧
        i = ui.getD (getDynamicIntervalOpt parts.diffInSeconds)) := by
  have hfire : fireElapsedMs i (n + 1) - fireElapsedMs i n = i := by
    unfold fireElapsedMs; push_cast; ring
  constructor
  · intro h
    unfold hookSessionInterval at h
    cases hc : calculateRelativeTime host now input with
    | none => rw [hc] at h; exact absurd h (by simp)
    | some parts =>
      rw [hc] at h
      simp only at h
      split_ifs at h with hpos
      have e := Option.some.inj h
      exact ⟨hfire, e ▸ hpos, parts, rfl, e.symm⟩
  · intro h
    unfold classSessionInterval at h
    cases hc : calculateRelativeTime host now input with
    | none => rw [hc] at h; exact absurd h (by simp)
    | some parts =>
      rw [hc] at h
      simp only at h
      split_ifs at h with hpos
      have e := Option.some.inj h
      exact ⟨hfire, e ▸ hpos, parts, rfl, e.symm⟩

/-- Witness for C2 (amended) on the session of the counterexample: the hook
session with initial offset -3590 s has the fixed cadence 60000 ms, derived
from the parts computed at setup. -/
theorem c2_witness :
    fireElapsedMs 60000 1 - fireElapsedMs 60000 0 = 60000 ∧ (0 : ℤ) < 60000 ∧
    ∃ parts, calculateRelativeTime (esHost 0) 3590000 (.date (some 0)) =
        some parts ∧
      (60000 : ℤ) = getDynamicIntervalOpt parts.diffInSeconds :=
  (c2_fixed_cadence_amended (esHost 0) 3590000 (.date (some 0)) none 60000 0).1
    (by
      simp only [hookSessionInterval, calculateRelativeTime, parseDate,
        Option.map, scanUnits, unitTable, unitSeconds, jsRound,
        getDynamicIntervalOpt, getDynamicInterval]
      norm_num)

/-- The offset after `e` ms of wall time is non-positive exactly when the
initial offset (in s, scaled to ms) has been consumed. -/
lemma offsetAfter_nonpos_iff (d0 : ℚ) (e : ℤ) :
    offsetAfter d0 e ≤ 0 ↔ 1000 * d0 ≤ (e : ℚ) := by
  unfold offsetAfter
  rw [sub_nonpos, le_div_iff₀ (by norm_num : (0 : ℚ) < 1000)]
  constructor <;> intro h <;> linarith

/-- Invariant of a class-component timer session with positive cadence: the
session is either still waiting (timer active, `onEnd` never invoked, wall
time advancing at the fixed cadence) or permanently stopped with `onEnd`
invoked exactly once, which happens from the first fire index `n ≥ 1` with
`1000 * d0 ≤ n * i` onward. -/
lemma classRun_spec (d0 : ℚ) (i : ℤ) (hi : 0 < i) (n : ℕ) :
    (¬(1 ≤ n ∧ 1000 * d0 ≤ (n : ℚ) * (i : ℚ)) ∧
      classRun d0 i n = ⟨(n : ℤ) * i, true, 0⟩) ∨
    ((1 ≤ n ∧ 1000 * d0 ≤ (n : ℚ) * (i : ℚ)) ∧
      (classRun d0 i n).active = false ∧ (classRun d0 i n).onEndCount = 1) := by
  have hiq : (0 : ℚ) < (i : ℚ) := by exact_mod_cast hi
  induction n with
  | zero => exact Or.inl ⟨by simp, by simp [classRun]⟩
  | succ n ih =>
    have hcast : (((n : ℤ) * i + i : ℤ) : ℚ) = ((n : ℚ) + 1) * (i : ℚ) := by
      push_cast; ring
    have hcast2 : ((n + 1 : ℕ) : ℚ) * (i : ℚ) = ((n : ℚ) + 1) * (i : ℚ) := by
      push_cast; ring
    rcases ih with ⟨hneg, heq⟩ | ⟨⟨hn1, hcond⟩, hact, hcnt⟩
    · by_cases hc : 1000 * d0 ≤ ((n : ℚ) + 1) * (i : ℚ)
      · right
        have hoff : offsetAfter d0 ((n : ℤ) * i + i) ≤ 0 :=
          (offsetAfter_nonpos_iff d0 _).2 (by rw [hcast]; exact hc)
        have hrun : classRun d0 i (n + 1) = ⟨(n : ℤ) * i + i, false, 1⟩ := by
          rw [classRun, heq]
          simp [classFire, hoff]
        exact ⟨⟨by omega, by rw [hcast2]; exact hc⟩, by rw [hrun], by rw [hrun]⟩
      · left
        have hoff : ¬ offsetAfter d0 ((n : ℤ) * i + i) ≤ 0 := fun hle =>
          hc (by rw [← hcast]; exact (offsetAfter_nonpos_iff d0 _).1 hle)
        refine ⟨?_, ?_⟩
        · rintro ⟨_, hcond'⟩
          rw [hcast2] at hcond'
          exact hc hcond'
        · rw [classRun, heq]
          have hfe : classFire d0 i ⟨(n : ℤ) * i, true, 0⟩ =
              ⟨(n : ℤ) * i + i, true, 0⟩ := by
            simp [classFire, hoff]
          have hc2 : (n : ℤ) * i + i = ((n + 1 : ℕ) : ℤ) * i := by
            push_cast; ring
          rw [hfe, hc2]
    · have hstep : classRun d0 i (n + 1) = classRun d0 i n := by
        rw [classRun, classFire, hact]
        simp
      right
      have hmono : (n : ℚ) * (i : ℚ) ≤ ((n : ℚ) + 1) * (i : ℚ) := by nlinarith
      refine ⟨⟨by omega, by rw [hcast2]; linarith⟩,
        by rw [hstep]; exact hact, by rw [hstep]; exact hcnt⟩

/-- Counterexample to C6 as stated: a session observing a timestamp that is
already 30 s in the past when it starts (offset -30, never positive) still
gets a timer (dynamic interval 1000 ms), and `onEnd` is invoked at the very
first fire because `diffInSeconds <= 0` holds there — the claim says it is
never invoked for a timestamp that was already non-future at session
start. -/
theorem c6_counterexample :
    classSessionInterval (esHost 0) 30000 (.date (some 0)) none = some 1000 ∧
    (classRun (-30) 1000 1).onEndCount = 1 ∧
    ((-30 : ℚ) ≤ 0) ∧ (0 : ℤ) < 1000 := by
  refine ⟨?_, ?_, by norm_num, by decide⟩
  · simp only [classSessionInterval, calculateRelativeTime, parseDate,
      Option.map, scanUnits, unitTable, unitSeconds, jsRound, Option.getD,
      getDynamicIntervalOpt, getDynamicInterval]
    norm_num
  · norm_num [classRun, classFire, offsetAfter]

/-- C6 amended: in a class-component timer session with an `onEnd` callback
and positive cadence `i`, `onEnd` is invoked at most once; it is invoked
(exactly once, after which the timer is permanently stopped) precisely from
the first fire at which the current offset is non-positive — i.e. from the
least `n ≥ 1` with `1000 * d0 ≤ n * i` — regardless of whether the offset
was ever positive, so a timestamp already non-future at session start
triggers it at the first fire; and the timer being stopped coincides with
the callback having been invoked. (When no timer starts — dynamic interval
-1 for offsets of a day or more, and no positive override — `onEnd` is never
invoked.) -/
theorem c6_on_end_amended (d0 : ℚ) (i : ℤ) (hi : 0 < i) (n : ℕ) :
    (classRun d0 i n).onEndCount ≤ 1 ∧
    ((classRun d0 i n).onEndCount = 1 ↔
      1 ≤ n ∧ 1000 * d0 ≤ (n : ℚ) * (i : ℚ)) ∧
    ((classRun d0 i n).active = false ↔ (classRun d0 i n).onEndCount = 1) := by
  rcases classRun_spec d0 i hi n with ⟨hneg, heq⟩ | ⟨hcond, hact, hcnt⟩
  · rw [heq]
    refine ⟨by simp, ?_, by simp⟩
    constructor
    · intro h
      exact absurd h (by simp)
    · intro h
      exact absurd h hneg
  · exact ⟨by omega, by simp [hcnt, hcond], by simp [hact, hcnt]⟩

/-- Witness for C6 (amended) on the session of the counterexample: offset
-30 s, cadence 1000 ms, after the first fire. -/
theorem c6_witness :
    (classRun (-30) 1000 1).onEndCount ≤ 1 ∧
    ((classRun (-30) 1000 1).onEndCount = 1 ↔
      1 ≤ 1 ∧ 1000 * (-30 : ℚ) ≤ ((1 : ℕ) : ℚ) * ((1000 : ℤ) : ℚ)) ∧
    ((classRun (-30) 1000 1).active = false ↔
      (classRun (-30) 1000 1).onEndCount = 1) :=
  c6_on_end_amended (-30) 1000 (by norm_num) 1

/-- A valid offset qualifies a unit exactly when the rounded quotient passes
the magnitude test. -/
lemma unitQualifies_some (q : ℚ) (u : TimeUnit) :
    unitQualifies (some q) u ↔ 1 ≤ (jsRound (q / unitSeconds u)).natAbs := by
  unfold unitQualifies
  simp

/-- A `NaN` offset qualifies no unit. -/
lemma unitQualifies_none (u : TimeUnit) : ¬ unitQualifies none u := by
  rintro ⟨q, hq, _⟩
  exact Option.noConfusion hq

/-- Characterization of the scan over the full fixed table for a valid
offset: the selected unit qualifies, carries its rounded quotient as the
value, and no strictly larger unit qualifies; or nothing qualifies and the
degenerate result is produced. -/
lemma scanUnits_table_spec (q : ℚ) :
    (unitQualifies (some q) (scanUnits (some q) unitTable).unit ∧
      (scanUnits (some q) unitTable).value =
        jsRound (q / unitSeconds (scanUnits (some q) unitTable).unit) ∧
      ∀ u : TimeUnit,
        unitSeconds (scanUnits (some q) unitTable).unit < unitSeconds u →
        ¬ unitQualifies (some q) u) ∨
    ((scanUnits (some q) unitTable).value = 0 ∧
      (scanUnits (some q) unitTable).unit = .second ∧
      ∀ u : TimeUnit, ¬ unitQualifies (some q) u) := by
  simp only [unitTable, scanUnits, unitQualifies_some]
  split_ifs with h1 h2 h3 h4 h5 h6 h7 <;> dsimp only <;>
    first
      | exact Or.inr ⟨rfl, rfl, by intro u; cases u <;> assumption⟩
      | (refine Or.inl ⟨by assumption, rfl, ?_⟩
         intro u hu
         cases u <;> first | assumption | norm_num [unitSeconds] at hu)

/-- C1: for every input accepted by the normalizer, the calculator selects
the largest unit of the fixed table (scanned in descending order) whose
rounded quotient has absolute value at least 1, and uses that rounded
quotient as the magnitude; when no unit qualifies (including the `NaN`
offset of an invalid date), the result is magnitude 0 and unit second. -/
theorem c1_largest_unit_selection (host : String → Option ℤ) (now : ℤ)
    (input : DateInput) (parts : RelativeTimeParts)
    (h : calculateRelativeTime host now input = some parts) :
    (unitQualifies parts.diffInSeconds parts.unit ∧
      (∃ q, parts.diffInSeconds = some q ∧
        parts.value = jsRound (q / unitSeconds parts.unit)) ∧
      ∀ u : TimeUnit, unitSeconds parts.unit < unitSeconds u →
        ¬ unitQualifies parts.diffInSeconds u) ∨
    (parts.value = 0 ∧ parts.unit = .second ∧
      ∀ u : TimeUnit, ¬ unitQualifies parts.diffInSeconds u) := by
  unfold calculateRelativeTime at h
  cases hp : parseDate host input with
  | none => rw [hp] at h; exact absurd h (by simp)
  | some tOpt =>
    rw [hp] at h
    simp only at h
    have hparts := Option.some.inj h
    subst hparts
    cases tOpt with
    | none =>
      exact Or.inr ⟨rfl, rfl, fun u => unitQualifies_none u⟩
    | some t =>
      rw [scanUnits_diff]
      rcases scanUnits_table_spec (((t : ℚ) - (now : ℚ)) / 1000) with
        ⟨hq, hval, hmax⟩ | ⟨hv, hu, hnone⟩
      · exact Or.inl ⟨hq, ⟨_, rfl, hval⟩, hmax⟩
      · exact Or.inr ⟨hv, hu, hnone⟩

/-- Witness for C1 at the spec's own example: offset -125 s selects
magnitude -2 and unit minute (round(-125/60) = -2, all larger units round
to 0). -/
theorem c1_witness :
    (unitQualifies (some (-125 : ℚ)) .minute ∧
      (∃ q, (some (-125 : ℚ) : Option ℚ) = some q ∧
        (-2 : ℤ) = jsRound (q / unitSeconds .minute)) ∧
      ∀ u : TimeUnit, unitSeconds .minute < unitSeconds u →
        ¬ unitQualifies (some (-125 : ℚ)) u) ∨
    ((-2 : ℤ) = 0 ∧ TimeUnit.minute = .second ∧
      ∀ u : TimeUnit, ¬ unitQualifies (some (-125 : ℚ)) u) :=
  c1_largest_unit_selection (esHost 0) 125000 (.date (some 0))
    ⟨-2, .minute, some (-125)⟩
    (by
      simp only [calculateRelativeTime, parseDate, Option.map, scanUnits,
        unitTable, unitSeconds, jsRound]
      norm_num)

/-- C10: the two string fast paths require exact field widths. A successful
match of the first matcher means a 10-character input with a 4-character
year and 2-character month/day captures; a successful match of the
US-format matcher means a 10-character input with 2-2-4 captures; and for
every string on which both matchers fail — such as "1/2/2025" and
"2025-7-18", which have one-digit fields — `parseDate` hands the original
string unchanged to the host general parser. -/
theorem c10_exact_widths :
    (∀ (l : List Char) (r : String × String × String), matchYMDList l = some r →
      l.length = 10 ∧ r.1.length = 4 ∧ r.2.1.length = 2 ∧ r.2.2.length = 2) ∧
    (∀ (l : List Char) (r : String × String × String), matchMDYList l = some r →
      l.length = 10 ∧ r.1.length = 2 ∧ r.2.1.length = 2 ∧ r.2.2.length = 4) ∧
    (∀ (host : String → Option ℤ) (s : String),
      matchYMDList s.toList = none → matchMDYList s.toList = none →
      parseDate host (.str s) = (host s).map some) ∧
    matchYMDList "1/2/2025".toList = none ∧
    matchMDYList "1/2/2025".toList = none ∧
    matchYMDList "2025-7-18".toList = none ∧
    matchMDYList "2025-7-18".toList = none := by
  refine ⟨?_, ?_, ?_, by decide, by decide, by decide, by decide⟩
  · intro l r h
    unfold matchYMDList at h
    split at h
    · split_ifs at h with hg
      obtain rfl := Option.some.inj h
      exact ⟨rfl, rfl, rfl, rfl⟩
    · exact absurd h (by simp)
  · intro l r h
    unfold matchMDYList at h
    split at h
    · split_ifs at h with hg
      obtain rfl := Option.some.inj h
      exact ⟨rfl, rfl, rfl, rfl⟩
    · exact absurd h (by simp)
  · intro host s h1 h2
    have h1' : matchYMDList s.data = none := h1
    have h2' : matchMDYList s.data = none := h2
    simp [parseDate, effectiveParseString, h1', h2']

/-- Witness for C10 on the one-digit-field strings named by the claim: both
fast paths fail and the original string goes to the host parser. -/
theorem c10_witness :
    parseDate (esHost 0) (.str "1/2/2025") = ((esHost 0) "1/2/2025").map some ∧
    parseDate (esHost 0) (.str "2025-7-18") =
      ((esHost 0) "2025-7-18").map some :=
  ⟨c10_exact_widths.2.2.1 (esHost 0) "1/2/2025" (by decide) (by decide),
   c10_exact_widths.2.2.1 (esHost 0) "2025-7-18" (by decide) (by decide)⟩

/-- Value of a two-character capture string. -/
lemma strVal_two (a b : Char) : strVal ⟨[a, b]⟩ = val2 a b := by
  simp [strVal, val2, String.toList, List.foldl]

/-- Value of a four-character capture string. -/
lemma strVal_four (a b c d : Char) : strVal ⟨[a, b, c, d]⟩ = val4 a b c d := by
  simp [strVal, val4, String.toList, List.foldl]
  ring

/-- C8: a string matched by the `YYYY-MM-DD` / `YYYY/MM/DD` fast path is
rebuilt as `YYYY-MM-DDT00:00:00` and handed to the host parser — before the
US-format rule and before general delegation, for every host — and under
the modelled ES host semantics the result is local midnight of that
calendar date (UTC midnight of y-m-d shifted by the local-zone offset `tz`)
when the date is valid, and null otherwise; for `tz ≠ 0` the instant
differs from UTC midnight. -/
theorem c8_local_midnight (tz : ℤ) (s y m d : String)
    (h : matchYMDList s.toList = some (y, m, d)) :
    (∀ host : String → Option ℤ,
      parseDate host (.str s) =
        (host (y ++ "-" ++ m ++ "-" ++ d ++ "T00:00:00")).map some) ∧
    parseDate (esHost tz) (.str s) =
      (if 1 ≤ strVal m ∧ strVal m ≤ 12 ∧ 1 ≤ strVal d ∧
          strVal d ≤ daysInMonth (strVal y) (strVal m)
        then some (some (utcMidnightMs (strVal y) (strVal m) (strVal d) - tz))
        else none) ∧
    (tz ≠ 0 → utcMidnightMs (strVal y) (strVal m) (strVal d) - tz ≠
      utcMidnightMs (strVal y) (strVal m) (strVal d)) := by
  have hhost : ∀ host : String → Option ℤ,
      parseDate host (.str s) =
        (host (y ++ "-" ++ m ++ "-" ++ d ++ "T00:00:00")).map some := by
    intro host
    have h' : matchYMDList s.data = some (y, m, d) := h
    simp [parseDate, effectiveParseString, h']
  refine ⟨hhost, ?_, fun htz => by omega⟩
  rw [hhost (esHost tz)]
  unfold matchYMDList at h
  split at h
  · rename_i y1 y2 y3 y4 p m1 m2 qq d1 d2 heq
    split_ifs at h with hg
    simp only [Bool.and_eq_true] at hg
    obtain ⟨⟨⟨⟨⟨⟨⟨⟨⟨hy1, hy2⟩, hy3⟩, hy4⟩, hp⟩, hm1⟩, hm2⟩, hqq⟩, hd1⟩, hd2⟩ := hg
    have h3 := Option.some.inj h
    simp only [Prod.mk.injEq] at h3
    obtain ⟨hy, hm, hd⟩ := h3
    subst hy; subst hm; subst hd
    have h0d : ('0' : Char).isDigit = true := by decide
    have h00 : val2 '0' '0' = 0 := by decide
    rw [strVal_four, strVal_two, strVal_two]
    simp only [esHost, String.toList, hy1, hy2, hy3, hy4, hm1, hm2, hd1, hd2,
      h0d, h00, eq_self_iff_true, true_and, and_true, if_true,
      show (0 : ℕ) ≤ 23 from by decide, show (0 : ℕ) ≤ 59 from by decide,
      Nat.cast_zero, mul_zero, add_zero]
    by_cases hv : 1 ≤ val2 m1 m2 ∧ val2 m1 m2 ≤ 12 ∧ 1 ≤ val2 d1 d2 ∧
        val2 d1 d2 ≤ daysInMonth (val4 y1 y2 y3 y4) (val2 m1 m2)
    · simp [hv]
      exact ⟨⟨hy1, hy2, hy3, hy4, hm1, hm2, hd1, hd2⟩,
        ⟨by norm_num [h00], by norm_num [h00]⟩, by norm_num [h00]⟩
    · simp [hv]
      intro _ _ _ _ _ _ _ _ h1 h2 h3 h4 _
      exact absurd ⟨h1, h2, h3, h4⟩ hv
  · exact absurd h (by simp)

/-- Witness for C8 at "2025-07-18" in a local zone one hour east of UTC
(the parse is local midnight, one hour before UTC midnight), plus the
malformed date "2025-99-99" yielding null. -/
theorem c8_witness :
    ((∀ host : String → Option ℤ,
      parseDate host (.str "2025-07-18") =
        (host ("2025" ++ "-" ++ "07" ++ "-" ++ "18" ++ "T00:00:00")).map some) ∧
    parseDate (esHost 3600000) (.str "2025-07-18") =
      (if 1 ≤ strVal "07" ∧ strVal "07" ≤ 12 ∧ 1 ≤ strVal "18" ∧
          strVal "18" ≤ daysInMonth (strVal "2025") (strVal "07")
        then some (some (utcMidnightMs (strVal "2025") (strVal "07")
          (strVal "18") - 3600000))
        else none) ∧
    ((3600000 : ℤ) ≠ 0 →
      utcMidnightMs (strVal "2025") (strVal "07") (strVal "18") - 3600000 ≠
        utcMidnightMs (strVal "2025") (strVal "07") (strVal "18"))) ∧
    parseDate (esHost 3600000) (.str "2025-99-99") = none :=
  ⟨c8_local_midnight 3600000 "2025-07-18" "2025" "07" "18" (by decide),
   by decide⟩

end ReactLiveTime
